import Mathlib

/-!
Verification of the vfm-used-car-finder data pipeline.

The Python sources are shallowly embedded:
* numeric columns are modelled with exact rationals (`ℚ`) and integers,
* nullable fields with `Option`,
* DataFrame row collections with `List`,
* the crawl loop and the progress-file write sequence as explicit event
  traces, and
* the orchestrator's control flow as a function over an explicit scenario
  describing which external steps succeed.
-/

namespace VFM

/-! ## Recommendation labelling (`app.py`, `label_recommendation`)

The Python function branches on `pd.isnull(row[...])`, then on
`row[...] < -1`, then on `-1 <= row[...] <= 1`, with a final `else`.
A nullable float cell is modelled as `Option ℚ`. -/

def label_recommendation (price_diff_vs_error : Option ℚ) : String :=
  match price_diff_vs_error with
  | none => "❔ Not enough data"
  | some x =>
    if x < -1 then "🔥 Good deal"
    else if -1 ≤ x ∧ x ≤ 1 then "✅ Fair price"
    else "💸 Overpriced"

/-! ## Outlier filter (`main.py`, `drop_price_outliers_by_title`)

Rows carry the numeric columns the pipeline stages touch.  The mask is
`(ratio < ratio_thresh) & (ratio > 1 / ratio_thresh)` with
`ratio = avg_price_by_title / price` and `ratio_thresh = 10`. -/

structure CarRow where
  listing_id : String
  price : ℚ
  avg_price_by_title : ℚ
  std_error_pct : ℚ
  predicted_price : ℚ
  price_diff_pct : Option ℚ
  price_diff_vs_error : Option ℚ
deriving Repr, DecidableEq, Inhabited

def outlier_mask (ratio_thresh : ℚ) (r : CarRow) : Bool :=
  let ratio := r.avg_price_by_title / r.price
  decide (ratio < ratio_thresh) && decide (ratio > 1 / ratio_thresh)

def drop_price_outliers_by_title (rows : List CarRow) : List CarRow :=
  rows.filter (outlier_mask 10)

/-! ## Months to test (`main.py`, `preprocess_car_data` step 7)

`months_to_test = (test.year - upload.year)*12 + (test.month - upload.month)`
followed by `.clip(lower=0)`; pandas `clip(lower=0)` is `max · 0`.
Rows where either date is null (`NaT`) propagate null. -/

def months_to_test (test_year test_month upload_year upload_month : ℤ) : ℤ :=
  max ((test_year - upload_year) * 12 + (test_month - upload_month)) 0

def months_to_test_col (test_date upload_date : Option (ℤ × ℤ)) : Option ℤ :=
  match test_date, upload_date with
  | some t, some u => some (months_to_test t.1 t.2 u.1 u.2)
  | _, _ => none

/-! ## Progress channel (`main.py`, `update_progress`)

The written JSON object is
`{"current": c, "total": t, "progress_pct": int((c/t)*100) if t else 0}`.
Python `int(...)` truncates toward zero; `if total` tests `total ≠ 0`.
The whole body runs inside `try/except Exception`, which logs and
returns.  The file write may fail for external reasons, modelled by the
`io_ok` flag; the division hazard is modelled by an `Except`-valued
`pydiv` that raises on a zero divisor, exactly as Python `/` would. -/

def pytrunc (q : ℚ) : ℤ :=
  if 0 ≤ q then ⌊q⌋ else -⌊-q⌋

def progress_pct (current total : ℤ) : ℤ :=
  if total ≠ 0 then pytrunc ((current : ℚ) / (total : ℚ) * 100) else 0

structure ProgressData where
  current : ℤ
  total : ℤ
  progress_pct : ℤ
deriving Repr, DecidableEq

def pydiv (a b : ℚ) : Except String ℚ :=
  if b = 0 then Except.error "ZeroDivisionError" else Except.ok (a / b)

def update_progress_body (io_ok : Bool) (current total : ℤ) :
    Except String ProgressData := do
  let pct ←
    if total ≠ 0 then do
      let q ← pydiv (current : ℚ) (total : ℚ)
      pure (pytrunc (q * 100))
    else
      pure 0
  let d : ProgressData := ⟨current, total, pct⟩
  if io_ok then pure d else Except.error "failed to write progress file"

inductive PyOutcome where
  | written (d : ProgressData)
  | logged (msg : String)
deriving Repr, DecidableEq

def update_progress (io_ok : Bool) (current total : ℤ) : PyOutcome :=
  match update_progress_body io_ok current total with
  | Except.ok d => PyOutcome.written d
  | Except.error e => PyOutcome.logged ("Failed to update progress: " ++ e)

/-! ## Atomic replace (`main.py`, `update_progress` write sequence)

The write sequence is: open the temporary path, serialize the complete
state into it (modelled field by field, so intermediate truncated
temporary contents are visible states), then `os.replace` the temporary
file over the canonical path.  Only the replace step touches the
canonical path. -/

def serialize (d : ProgressData) : List (String × ℤ) :=
  [("current", d.current), ("total", d.total),
   ("progress_pct", d.progress_pct)]

inductive MicroStep where
  | openTmp
  | appendField (key : String) (value : ℤ)
  | replaceFile
deriving Repr, DecidableEq

structure FileSystem where
  canonical : Option (List (String × ℤ))
  tmp : Option (List (String × ℤ))
deriving Repr, DecidableEq

def apply_micro_step (fs : FileSystem) : MicroStep → FileSystem
  | MicroStep.openTmp => { fs with tmp := some [] }
  | MicroStep.appendField k v =>
      { fs with tmp := fs.tmp.map (fun l => l ++ [(k, v)]) }
  | MicroStep.replaceFile => { canonical := fs.tmp, tmp := none }

def write_micro_steps (d : ProgressData) : List MicroStep :=
  [MicroStep.openTmp,
   MicroStep.appendField "current" d.current,
   MicroStep.appendField "total" d.total,
   MicroStep.appendField "progress_pct" d.progress_pct,
   MicroStep.replaceFile]

def fs_after (prior : Option (List (String × ℤ))) (d : ProgressData)
    (k : ℕ) : FileSystem :=
  ((write_micro_steps d).take k).foldl apply_micro_step
    { canonical := prior, tmp := none }

/-! ## Crawl loop trace (`main.py`, `scrape_yad2_from_filtered_url`)

After URL deduplication the loop is
`for idx, url in enumerate(listing_urls): update_progress(idx+1, total);
try: <visit the listing> except: <log and continue>`.
The observable order of progress writes and listing visits is modelled
as an event trace: one `progressWrite (idx+1) total` event followed by
one `visit idx` event per listing, in loop order. -/

inductive CrawlEvent where
  | progressWrite (current total : ℤ)
  | visit (idx : ℕ)
deriving Repr, DecidableEq

def crawl_loop_events (total : ℤ) : List ℕ → List CrawlEvent
  | [] => []
  | i :: rest =>
      CrawlEvent.progressWrite ((i : ℤ) + 1) total :: CrawlEvent.visit i ::
        crawl_loop_events total rest

def crawl_trace (n : ℕ) : List CrawlEvent :=
  crawl_loop_events (n : ℤ) (List.range n)

def write_currents (trace : List CrawlEvent) : List ℤ :=
  trace.filterMap (fun e =>
    match e with
    | CrawlEvent.progressWrite c _ => some c
    | CrawlEvent.visit _ => none)

/-- The ordering asserted by the claim: every progress update for a
listing appears in the trace after that listing's visit. -/
def write_after_visit (n : ℕ) : Prop :=
  ∀ i : Fin n,
    ∃ jv jw : Fin (crawl_trace n).length,
      (jv : ℕ) < (jw : ℕ) ∧
      (crawl_trace n).get jv = CrawlEvent.visit i ∧
      (crawl_trace n).get jw =
        CrawlEvent.progressWrite ((i : ℤ) + 1) (n : ℤ)

instance (n : ℕ) : Decidable (write_after_visit n) := by
  unfold write_after_visit
  infer_instance

/-! ## Scoring (`main.py`, `add_price_diff_features`; `app.py`)

`add_price_diff_features` always computes
`price_diff_pct = 100 * (price - predicted_price) / predicted_price`;
it fills `price_diff_vs_error = price_diff_pct / std_error_pct` when the
`std_error_pct` column exists and `None` otherwise (a whole-frame
condition, modelled by the `has_std_col` flag).  `app.py` then sets
`VFM Score = -1 * price_diff_vs_error` and ranks with
`sort_values(by="VFM Score", ascending=False)`. -/

def price_diff_pct (r : CarRow) : ℚ :=
  100 * (r.price - r.predicted_price) / r.predicted_price

def price_diff_vs_error_val (r : CarRow) : ℚ :=
  price_diff_pct r / r.std_error_pct

def score_row (has_std_col : Bool) (r : CarRow) : CarRow :=
  { r with
    price_diff_pct := some (price_diff_pct r),
    price_diff_vs_error :=
      if has_std_col then some (price_diff_vs_error_val r) else none }

def add_price_diff_features (has_std_col : Bool)
    (rows : List CarRow) : List CarRow :=
  rows.map (score_row has_std_col)

def vfm_score_val (r : CarRow) : ℚ :=
  -1 * price_diff_vs_error_val r

def insert_desc (key : CarRow → ℚ) (r : CarRow) :
    List CarRow → List CarRow
  | [] => [r]
  | x :: xs =>
      if key x ≤ key r then r :: x :: xs else x :: insert_desc key r xs

def sort_values_desc (key : CarRow → ℚ) : List CarRow → List CarRow
  | [] => []
  | x :: xs => insert_desc key x (sort_values_desc key xs)

/-! ## Price extraction and the keep test (`main.py`, crawl loop)

The extractor sets
`details["price"] = span.text.strip().replace(",", "").replace("₪", "")`
when the price span exists and `None` otherwise.  The crawl loop then
appends the record with `if details.get("price"):` — Python truthiness,
which rejects both `None` and the empty string. -/

def py_strip (s : String) : String :=
  String.mk
    (((s.data.dropWhile Char.isWhitespace).reverse.dropWhile
      Char.isWhitespace).reverse)

def remove_all_char (c : Char) (s : String) : String :=
  String.mk (s.data.filter (fun a => a ≠ c))

def extract_price (price_span_text : Option String) : Option String :=
  price_span_text.map
    (fun t => remove_all_char '₪' (remove_all_char ',' (py_strip t)))

def price_truthy (p : Option String) : Bool :=
  match p with
  | none => false
  | some s => decide (s ≠ "")

/-! ## Orchestrator control flow (`app.py`, `run_scraper_subprocess`)

The body is one `try` block: launch the subprocess, poll the progress
file in a loop, delete `progress.json`, read the child output, then
branch on the exit status and on JSON decodability; `except Exception`
returns an empty frame.  A scenario records which of the external steps
succeed; the deletion flag records whether the cleanup statement was
reached before returning. -/

structure OrchestratorScenario where
  launch_ok : Bool
  poll_ok : Bool
  returncode : ℤ
  output_decodable : Bool
deriving Repr, DecidableEq

inductive RunOutput where
  | records
  | emptyFrame
deriving Repr, DecidableEq

structure RunResult where
  progress_file_deleted : Bool
  output : RunOutput
deriving Repr, DecidableEq

def run_scraper_subprocess (s : OrchestratorScenario) : RunResult :=
  if s.launch_ok = false then ⟨false, RunOutput.emptyFrame⟩
  else if s.poll_ok = false then ⟨false, RunOutput.emptyFrame⟩
  else if s.returncode ≠ 0 then ⟨true, RunOutput.emptyFrame⟩
  else if s.output_decodable = false then ⟨true, RunOutput.emptyFrame⟩
  else ⟨true, RunOutput.records⟩

/-! ## Frame effects of the pipeline stages (`main.py`)

`preprocess_car_data`, `predict_prices` and `add_price_diff_features`
each begin with `df = df.copy()` and apply all subsequent mutations to
the copy.  Aliasing is made explicit with a heap of frames addressed by
index: a stage receives a reference, allocates a fresh copy, folds its
mutation steps over the copy only, and returns the heap plus the
reference of the copy. -/

abbrev Frame := List CarRow

abbrev Heap := List Frame

def heap_get (h : Heap) (r : ℕ) : Frame := h.getD r []

def heap_set (h : Heap) (r : ℕ) (f : Frame) : Heap := h.set r f

def run_stage (body : List (Frame → Frame)) (h : Heap) (r : ℕ) :
    Heap × ℕ :=
  let copied := h ++ [heap_get h r]
  let rcopy := h.length
  (body.foldl
    (fun acc op => heap_set acc rcopy (op (heap_get acc rcopy))) copied,
   rcopy)

def dedup_by_listing_id (fr : Frame) : Frame :=
  fr.foldl
    (fun acc row =>
      if acc.any (fun x => x.listing_id == row.listing_id) then acc
      else acc ++ [row])
    []

def preprocess_car_data_st (h : Heap) (r : ℕ) : Heap × ℕ :=
  run_stage [dedup_by_listing_id, drop_price_outliers_by_title] h r

def predict_prices_st (model : CarRow → ℚ) (h : Heap) (r : ℕ) :
    Heap × ℕ :=
  run_stage
    [fun fr => fr.map (fun row => { row with predicted_price := model row })]
    h r

def add_price_diff_features_st (has_std_col : Bool) (h : Heap) (r : ℕ) :
    Heap × ℕ :=
  run_stage [fun fr => add_price_diff_features has_std_col fr] h r

/-! ## Claim theorems (first group) -/

/-- C1: the recommendation label is determined solely by
`price_diff_vs_error` with inclusive boundaries at ±1: null yields the
insufficient-data label, values `< -1` yield "good deal", values in
`[-1, 1]` (both endpoints included) yield "fair price", and values `> 1`
yield "overpriced"; in particular `-1`, `1` map to "fair price" and
`-1.01` to "good deal". -/
theorem recommendation_boundaries (x : ℚ) :
    label_recommendation none = "❔ Not enough data" ∧
    (x < -1 → label_recommendation (some x) = "🔥 Good deal") ∧
    (-1 ≤ x → x ≤ 1 → label_recommendation (some x) = "✅ Fair price") ∧
    (1 < x → label_recommendation (some x) = "💸 Overpriced") ∧
    label_recommendation (some (-1)) = "✅ Fair price" ∧
    label_recommendation (some 1) = "✅ Fair price" ∧
    label_recommendation (some (-101/100)) = "🔥 Good deal" := by
  refine ⟨rfl, ?_, ?_, ?_, ?_, ?_, ?_⟩
  · intro h
    simp [label_recommendation, if_pos h]
  · intro h1 h2
    have hnot : ¬ x < -1 := not_lt.mpr h1
    simp [label_recommendation, if_neg hnot, h1, h2]
  · intro h
    have h1 : ¬ x < -1 := by linarith
    have h2 : ¬ (-1 ≤ x ∧ x ≤ 1) := by
      rintro ⟨_, hx⟩; linarith
    simp [label_recommendation, if_neg h1, if_neg h2]
  · norm_num [label_recommendation]
  · norm_num [label_recommendation]
  · norm_num [label_recommendation]

/-- Witness for C1 at the concrete value `x = -1`. -/
theorem recommendation_boundaries_witness :
    ((-1 : ℚ) < -1 → label_recommendation (some (-1)) = "🔥 Good deal") ∧
    ((-1 : ℚ) ≤ -1 → (-1 : ℚ) ≤ 1 →
      label_recommendation (some (-1)) = "✅ Fair price") := by
  have h := recommendation_boundaries (-1)
  exact ⟨h.2.1, h.2.2.1⟩

/-- C3: the outlier filter keeps a row iff `avg_price_by_title / price`
lies strictly inside `(1/10, 10)`; ratios at or beyond either bound are
dropped.  Concretely, `avg = 100000, price = 5000` (ratio 20) is dropped,
`avg = 100000, price = 50000` (ratio 2) is kept, and rows whose ratio is
exactly `10` or exactly `1/10` are dropped. -/
theorem outlier_filter_open_interval (rows : List CarRow) (r : CarRow) :
    (r ∈ drop_price_outliers_by_title rows ↔
      r ∈ rows ∧
        (1 / 10 < r.avg_price_by_title / r.price ∧
          r.avg_price_by_title / r.price < 10)) ∧
    drop_price_outliers_by_title
      [{ listing_id := "a", price := 5000, avg_price_by_title := 100000,
         std_error_pct := 0, predicted_price := 0,
         price_diff_pct := none, price_diff_vs_error := none }] = [] ∧
    drop_price_outliers_by_title
      [{ listing_id := "b", price := 50000, avg_price_by_title := 100000,
         std_error_pct := 0, predicted_price := 0,
         price_diff_pct := none, price_diff_vs_error := none }] =
      [{ listing_id := "b", price := 50000, avg_price_by_title := 100000,
         std_error_pct := 0, predicted_price := 0,
         price_diff_pct := none, price_diff_vs_error := none }] ∧
    drop_price_outliers_by_title
      [{ listing_id := "c", price := 1, avg_price_by_title := 10,
         std_error_pct := 0, predicted_price := 0,
         price_diff_pct := none, price_diff_vs_error := none }] = [] ∧
    drop_price_outliers_by_title
      [{ listing_id := "d", price := 10, avg_price_by_title := 1,
         std_error_pct := 0, predicted_price := 0,
         price_diff_pct := none, price_diff_vs_error := none }] = [] := by
  refine ⟨?_,
    by norm_num [drop_price_outliers_by_title, outlier_mask, List.filter],
    by norm_num [drop_price_outliers_by_title, outlier_mask, List.filter],
    by norm_num [drop_price_outliers_by_title, outlier_mask, List.filter],
    by norm_num [drop_price_outliers_by_title, outlier_mask, List.filter]⟩
  constructor
  · intro h
    have h1 := List.mem_filter.mp h
    refine ⟨h1.1, ?_, ?_⟩
    · have := h1.2
      simp only [outlier_mask, Bool.and_eq_true, decide_eq_true_eq] at this
      exact this.2
    · have := h1.2
      simp only [outlier_mask, Bool.and_eq_true, decide_eq_true_eq] at this
      exact this.1
  · rintro ⟨hmem, hlo, hhi⟩
    refine List.mem_filter.mpr ⟨hmem, ?_⟩
    simp only [outlier_mask, Bool.and_eq_true, decide_eq_true_eq]
    exact ⟨hhi, hlo⟩

/-- C7: for rows with both dates parsed, `months_to_test` equals
`max 0 ((test.year − upload.year)*12 + (test.month − upload.month))`, is
never negative, a test date 3 months before the upload date yields `0`
(not `-3`), and null dates yield a null cell (so no negative value ever
appears in the column). -/
theorem months_to_test_clipped
    (ty tm uy um : ℤ) (t u : Option (ℤ × ℤ)) (v : ℤ) :
    months_to_test ty tm uy um =
      max 0 ((ty - uy) * 12 + (tm - um)) ∧
    0 ≤ months_to_test ty tm uy um ∧
    ((ty - uy) * 12 + (tm - um) = -3 → months_to_test ty tm uy um = 0) ∧
    months_to_test 2023 3 2023 6 = 0 ∧
    (months_to_test_col t u = some v → 0 ≤ v) := by
  refine ⟨max_comm _ _, le_max_right _ _, ?_, by decide, ?_⟩
  · intro h
    simp [months_to_test, h]
  · intro h
    cases t with
    | none => simp [months_to_test_col] at h
    | some tp =>
      cases u with
      | none => simp [months_to_test_col] at h
      | some up =>
        simp only [months_to_test_col, Option.some.injEq] at h
        subst h
        exact le_max_right _ _

/-- Witness for C7 at concrete dates: test 2023-03, upload 2023-06
(three months earlier) gives `0`. -/
theorem months_to_test_clipped_witness :
    (2023 - 2023 : ℤ) * 12 + (3 - 6) = -3 ∧
    months_to_test 2023 3 2023 6 = 0 ∧
    (months_to_test_col (some (2023, 3)) (some (2023, 6)) = some 0 →
      (0 : ℤ) ≤ 0) := by
  have h := months_to_test_clipped 2023 3 2023 6
    (some (2023, 3)) (some (2023, 6)) 0
  exact ⟨by decide, h.2.2.2.1, h.2.2.2.2⟩

lemma pytrunc_of_nonneg (q : ℚ) (h : 0 ≤ q) : pytrunc q = ⌊q⌋ :=
  if_pos h

lemma progress_pct_eq_floor (c t : ℤ) (hc : 0 ≤ c) (ht : 0 < t) :
    progress_pct c t = ⌊(100 * (c : ℚ)) / (t : ℚ)⌋ := by
  have ht0 : (t : ℤ) ≠ 0 := ht.ne.symm
  have htq : (0 : ℚ) < (t : ℚ) := by exact_mod_cast ht
  have hcq : (0 : ℚ) ≤ (c : ℚ) := by exact_mod_cast hc
  unfold progress_pct
  rw [if_pos ht0, pytrunc_of_nonneg]
  · congr 1
    ring
  · exact mul_nonneg (div_nonneg hcq htq.le) (by norm_num)

/-- C10: `update_progress` is total and never propagates an exception:
for all integer inputs and whether or not the file I/O succeeds it
returns a normal outcome (either the written state or a logged failure);
when `total = 0` the percentage division is guarded and `progress_pct`
is `0`; when I/O succeeds the full state is written. -/
theorem update_progress_never_raises (io_ok : Bool) (c t : ℤ) :
    ((∃ d, update_progress io_ok c t = PyOutcome.written d) ∨
      (∃ m, update_progress io_ok c t = PyOutcome.logged m)) ∧
    (io_ok = true →
      update_progress io_ok c t =
        PyOutcome.written ⟨c, t, progress_pct c t⟩) ∧
    (io_ok = false → ∃ m, update_progress io_ok c t = PyOutcome.logged m) ∧
    (t = 0 → progress_pct c t = 0) := by
  have hbody : update_progress_body io_ok c t =
      if io_ok then Except.ok ⟨c, t, progress_pct c t⟩
      else Except.error "failed to write progress file" := by
    unfold update_progress_body progress_pct pydiv
    by_cases ht : t = 0
    · subst ht
      simp [bind, Except.bind, pure, Except.pure]
    · have htq : (t : ℚ) ≠ 0 := by exact_mod_cast ht
      simp [ht, htq, bind, Except.bind, pure, Except.pure]
  refine ⟨?_, ?_, ?_, ?_⟩
  · cases io_ok with
    | true =>
      left
      exact ⟨⟨c, t, progress_pct c t⟩, by simp [update_progress, hbody]⟩
    | false =>
      right
      refine ⟨"Failed to update progress: failed to write progress file", ?_⟩
      simp [update_progress, hbody]
  · intro h
    subst h
    simp [update_progress, hbody]
  · intro h
    subst h
    refine ⟨"Failed to update progress: failed to write progress file", ?_⟩
    simp [update_progress, hbody]
  · intro h
    subst h
    simp [progress_pct]

/-- Witness for C10 at `io_ok = true`, `current = 3`, `total = 0`. -/
theorem update_progress_never_raises_witness :
    (update_progress true 3 0 =
      PyOutcome.written ⟨3, 0, progress_pct 3 0⟩) ∧
    progress_pct 3 0 = 0 := by
  have h := update_progress_never_raises true 3 0
  exact ⟨h.2.1 rfl, h.2.2.2 rfl⟩

/-- C6: at every point of the write sequence (serialize the full state
to the temporary path, then atomically replace the canonical path) the
canonical path holds either the prior content or the complete new
serialized state; the new state always carries the full 3-key schema,
and after the final step the canonical path holds exactly the new
state.  No intermediate step exposes a truncated state at the canonical
path. -/
theorem progress_write_atomic (prior : Option (List (String × ℤ)))
    (d : ProgressData) (k : ℕ) (hk : k ≤ (write_micro_steps d).length) :
    ((fs_after prior d k).canonical = prior ∨
      (fs_after prior d k).canonical = some (serialize d)) ∧
    (serialize d).length = 3 ∧
    (k < (write_micro_steps d).length →
      (fs_after prior d k).canonical = prior) ∧
    (k = (write_micro_steps d).length →
      (fs_after prior d k).canonical = some (serialize d)) := by
  have hlen : (write_micro_steps d).length = 5 := rfl
  rw [hlen] at hk
  refine ⟨?_, rfl, ?_, ?_⟩
  · interval_cases k
    · exact Or.inl rfl
    · exact Or.inl rfl
    · exact Or.inl rfl
    · exact Or.inl rfl
    · exact Or.inl rfl
    · exact Or.inr rfl
  · rw [hlen]
    intro hlt
    interval_cases k <;> rfl
  · rw [hlen]
    intro he
    subst he
    rfl

/-- Witness for C6: a concrete prior state, new state and observation
point (after the temporary file holds two of the three fields). -/
theorem progress_write_atomic_witness :
    ((fs_after (some (serialize ⟨1, 4, 25⟩)) ⟨2, 4, 50⟩ 3).canonical =
        some (serialize ⟨1, 4, 25⟩) ∨
      (fs_after (some (serialize ⟨1, 4, 25⟩)) ⟨2, 4, 50⟩ 3).canonical =
        some (serialize ⟨2, 4, 50⟩)) ∧
    (serialize ⟨2, 4, 50⟩).length = 3 ∧
    (3 < (write_micro_steps (⟨2, 4, 50⟩ : ProgressData)).length →
      (fs_after (some (serialize ⟨1, 4, 25⟩)) ⟨2, 4, 50⟩ 3).canonical =
        some (serialize ⟨1, 4, 25⟩)) ∧
    (3 = (write_micro_steps (⟨2, 4, 50⟩ : ProgressData)).length →
      (fs_after (some (serialize ⟨1, 4, 25⟩)) ⟨2, 4, 50⟩ 3).canonical =
        some (serialize ⟨2, 4, 50⟩)) :=
  progress_write_atomic (some (serialize ⟨1, 4, 25⟩)) ⟨2, 4, 50⟩ 3
    (by decide)

lemma crawl_loop_events_getElem? (total : ℤ) (l : List ℕ) (j : ℕ)
    (h : j < l.length) :
    (crawl_loop_events total l)[2 * j]? =
      some (CrawlEvent.progressWrite ((l.get ⟨j, h⟩ : ℤ) + 1) total) ∧
    (crawl_loop_events total l)[2 * j + 1]? =
      some (CrawlEvent.visit (l.get ⟨j, h⟩)) := by
  induction l generalizing j with
  | nil => simp at h
  | cons i rest ih =>
    cases j with
    | zero => simp [crawl_loop_events]
    | succ k =>
      have hk : k < rest.length := by simpa using h
      have hidx : 2 * (k + 1) = 2 * k + 1 + 1 := by ring
      have hrec := ih k hk
      constructor
      · rw [hidx]
        simpa [crawl_loop_events] using hrec.1
      · rw [hidx]
        simpa [crawl_loop_events] using hrec.2

lemma write_currents_crawl_loop (total : ℤ) (l : List ℕ) :
    write_currents (crawl_loop_events total l) =
      l.map (fun i : ℕ => (i : ℤ) + 1) := by
  induction l with
  | nil => rfl
  | cons i rest ih =>
    simp only [crawl_loop_events, write_currents, List.filterMap_cons,
      List.map_cons] at ih ⊢
    rw [ih]

/-- C5 counterexample: in a crawl over one deduplicated listing URL the
trace is `[progressWrite 1 1, visit 0]` — the progress update is
written *before* the corresponding listing visit, so the claim that
each update is written after the visit fails already at `N = 1`. -/
theorem crawl_write_not_after_visit :
    crawl_trace 1 =
      [CrawlEvent.progressWrite 1 1, CrawlEvent.visit 0] ∧
    ¬ write_after_visit 1 := by
  constructor
  · rfl
  · decide

/-- C5 amended: in the crawl loop each progress update is written
immediately *before* (not after) the corresponding listing visit, with
`current = idx + 1` counting the listing being started (so at write
time `current` exceeds the number of listings already processed by
one); across the run the written `current` values are exactly
`1, …, N` in strictly increasing order, and every written state has
`progress_pct = ⌊100·current/total⌋` (exact arithmetic). -/
theorem crawl_progress_updates (n i : ℕ) (h : i < n) :
    (crawl_trace n)[2 * i]? =
      some (CrawlEvent.progressWrite ((i : ℤ) + 1) (n : ℤ)) ∧
    (crawl_trace n)[2 * i + 1]? = some (CrawlEvent.visit i) ∧
    write_currents (crawl_trace n) =
      (List.range n).map (fun j : ℕ => (j : ℤ) + 1) ∧
    (write_currents (crawl_trace n)).length = n ∧
    (write_currents (crawl_trace n)).Pairwise (· < ·) ∧
    (∀ c ∈ write_currents (crawl_trace n), 1 ≤ c ∧ c ≤ (n : ℤ)) ∧
    progress_pct ((i : ℤ) + 1) (n : ℤ) =
      ⌊(100 * (((i : ℕ) : ℤ) + 1 : ℚ)) / ((n : ℕ) : ℚ)⌋ := by
  have hrange : i < (List.range n).length := by simpa using h
  have hget := crawl_loop_events_getElem? (n : ℤ) (List.range n) i hrange
  have hmap : write_currents (crawl_trace n) =
      (List.range n).map (fun j : ℕ => (j : ℤ) + 1) :=
    write_currents_crawl_loop (n : ℤ) (List.range n)
  refine ⟨?_, ?_, hmap, ?_, ?_, ?_, ?_⟩
  · have := hget.1
    simpa [crawl_trace, List.get_eq_getElem, List.getElem_range] using this
  · have := hget.2
    simpa [crawl_trace, List.get_eq_getElem, List.getElem_range] using this
  · rw [hmap]
    simp
  · rw [hmap]
    refine List.Pairwise.map _ ?_ (List.pairwise_lt_range n)
    intro a b hab
    exact_mod_cast Nat.add_lt_add_right hab 1
  · rw [hmap]
    intro c hc
    rcases List.mem_map.mp hc with ⟨j, hj, rfl⟩
    have hjn : j < n := List.mem_range.mp hj
    constructor
    · omega
    · exact_mod_cast Nat.succ_le_of_lt hjn
  · have hn : (0 : ℤ) < (n : ℤ) := by exact_mod_cast Nat.zero_lt_of_lt h
    have hfloor := progress_pct_eq_floor ((i : ℤ) + 1) (n : ℤ) (by omega) hn
    rw [hfloor]
    congr 1
    push_cast
    ring

/-- Witness for C5's amended claim at `n = 2`, `i = 0`. -/
theorem crawl_progress_updates_witness :
    (crawl_trace 2)[2 * 0]? =
      some (CrawlEvent.progressWrite ((0 : ℤ) + 1) (2 : ℤ)) ∧
    (crawl_trace 2)[2 * 0 + 1]? = some (CrawlEvent.visit 0) ∧
    write_currents (crawl_trace 2) =
      (List.range 2).map (fun j : ℕ => (j : ℤ) + 1) ∧
    (write_currents (crawl_trace 2)).length = 2 ∧
    (write_currents (crawl_trace 2)).Pairwise (· < ·) ∧
    (∀ c ∈ write_currents (crawl_trace 2), 1 ≤ c ∧ c ≤ (2 : ℤ)) ∧
    progress_pct ((0 : ℤ) + 1) (2 : ℤ) =
      ⌊(100 * (((0 : ℕ) : ℤ) + 1 : ℚ)) / ((2 : ℕ) : ℚ)⌋ :=
  crawl_progress_updates 2 0 (by decide)

lemma mem_insert_desc (key : CarRow → ℚ) (r y : CarRow) :
    ∀ l : List CarRow, y ∈ insert_desc key r l ↔ y = r ∨ y ∈ l := by
  intro l
  induction l with
  | nil => simp [insert_desc]
  | cons x xs ih =>
    by_cases hx : key x ≤ key r
    · simp [insert_desc, hx]
    · simp only [insert_desc, if_neg hx, List.mem_cons, ih]
      tauto

lemma insert_desc_pairwise (key : CarRow → ℚ) (r : CarRow)
    (l : List CarRow) (hl : l.Pairwise (fun a b => key b ≤ key a)) :
    (insert_desc key r l).Pairwise (fun a b => key b ≤ key a) := by
  induction l with
  | nil => simp [insert_desc]
  | cons x xs ih =>
    rcases List.pairwise_cons.mp hl with ⟨hx, hxs⟩
    by_cases hxr : key x ≤ key r
    · rw [insert_desc, if_pos hxr]
      refine List.pairwise_cons.mpr ⟨?_, hl⟩
      intro y hy
      rcases List.mem_cons.mp hy with rfl | hy2
      · exact hxr
      · exact le_trans (hx y hy2) hxr
    · rw [insert_desc, if_neg hxr]
      refine List.pairwise_cons.mpr ⟨?_, ih hxs⟩
      intro y hy
      rcases (mem_insert_desc key r y xs).mp hy with rfl | hy2
      · exact (not_le.mp hxr).le
      · exact hx y hy2

lemma sort_values_desc_pairwise (key : CarRow → ℚ) (l : List CarRow) :
    (sort_values_desc key l).Pairwise (fun a b => key b ≤ key a) := by
  induction l with
  | nil => simp [sort_values_desc]
  | cons x xs ih => exact insert_desc_pairwise key x _ ih

/-- C2: the scoring step computes
`price_diff_pct = 100 × (price − predicted_price) / predicted_price` for
every row; `price_diff_vs_error = price_diff_pct / std_error_pct` when
the `std_error_pct` column is present and null otherwise;
`VFM Score = −price_diff_vs_error`; and the ranked output sorted
descending by `VFM Score` is equivalently sorted ascending by
`price_diff_vs_error`, so of two records the one with the smaller
`price_diff_vs_error` ranks first. -/
theorem score_and_rank (rows : List CarRow) (r a b : CarRow)
    (hab : price_diff_vs_error_val a < price_diff_vs_error_val b) :
    (score_row true r).price_diff_pct =
      some (100 * (r.price - r.predicted_price) / r.predicted_price) ∧
    (score_row true r).price_diff_vs_error =
      some (price_diff_pct r / r.std_error_pct) ∧
    (score_row false r).price_diff_vs_error = none ∧
    add_price_diff_features true rows = rows.map (score_row true) ∧
    vfm_score_val r = -1 * price_diff_vs_error_val r ∧
    (sort_values_desc vfm_score_val rows).Pairwise
      (fun x y => vfm_score_val y ≤ vfm_score_val x) ∧
    (sort_values_desc vfm_score_val rows).Pairwise
      (fun x y =>
        price_diff_vs_error_val x ≤ price_diff_vs_error_val y) ∧
    sort_values_desc vfm_score_val [a, b] = [a, b] := by
  refine ⟨rfl, rfl, rfl, rfl, rfl, sort_values_desc_pairwise _ rows, ?_, ?_⟩
  · refine (sort_values_desc_pairwise vfm_score_val rows).imp ?_
    intro x y hxy
    simp only [vfm_score_val] at hxy
    linarith
  · have hba : vfm_score_val b ≤ vfm_score_val a := by
      simp only [vfm_score_val]
      linarith
    simp [sort_values_desc, insert_desc, hba]

/-- Witness for C2 at two concrete records: one priced 15% under its
prediction and one 15% over, both with `std_error_pct = 10`. -/
theorem score_and_rank_witness :
    price_diff_vs_error_val
        { listing_id := "under", price := 85, avg_price_by_title := 100,
          std_error_pct := 10, predicted_price := 100,
          price_diff_pct := none, price_diff_vs_error := none } <
      price_diff_vs_error_val
        { listing_id := "over", price := 115, avg_price_by_title := 100,
          std_error_pct := 10, predicted_price := 100,
          price_diff_pct := none, price_diff_vs_error := none } ∧
    sort_values_desc vfm_score_val
        [{ listing_id := "under", price := 85, avg_price_by_title := 100,
           std_error_pct := 10, predicted_price := 100,
           price_diff_pct := none, price_diff_vs_error := none },
         { listing_id := "over", price := 115, avg_price_by_title := 100,
           std_error_pct := 10, predicted_price := 100,
           price_diff_pct := none, price_diff_vs_error := none }] =
      [{ listing_id := "under", price := 85, avg_price_by_title := 100,
         std_error_pct := 10, predicted_price := 100,
         price_diff_pct := none, price_diff_vs_error := none },
       { listing_id := "over", price := 115, avg_price_by_title := 100,
         std_error_pct := 10, predicted_price := 100,
         price_diff_pct := none, price_diff_vs_error := none }] := by
  have hab : price_diff_vs_error_val
      { listing_id := "under", price := 85, avg_price_by_title := 100,
        std_error_pct := 10, predicted_price := 100,
        price_diff_pct := none, price_diff_vs_error := none } <
    price_diff_vs_error_val
      { listing_id := "over", price := 115, avg_price_by_title := 100,
        std_error_pct := 10, predicted_price := 100,
        price_diff_pct := none, price_diff_vs_error := none } := by
    norm_num [price_diff_vs_error_val, price_diff_pct]
  have h := score_and_rank []
    { listing_id := "under", price := 85, avg_price_by_title := 100,
      std_error_pct := 10, predicted_price := 100,
      price_diff_pct := none, price_diff_vs_error := none }
    { listing_id := "under", price := 85, avg_price_by_title := 100,
      std_error_pct := 10, predicted_price := 100,
      price_diff_pct := none, price_diff_vs_error := none }
    { listing_id := "over", price := 115, avg_price_by_title := 100,
      std_error_pct := 10, predicted_price := 100,
      price_diff_pct := none, price_diff_vs_error := none } hab
  exact ⟨hab, h.2.2.2.2.2.2.2⟩

/-- C4 counterexample: a price span containing only the currency symbol
extracts to the empty string — a non-null price field — yet the
truthiness test discards the record, so "every record with a non-null
price is kept" fails. -/
theorem price_keep_counterexample :
    extract_price (some "₪") = some "" ∧
    extract_price (some "₪") ≠ none ∧
    price_truthy (extract_price (some "₪")) = false := by
  refine ⟨?_, ?_, ?_⟩ <;> decide

/-- C4 amended: the crawl appends a record if and only if its extracted
price field is non-null *and non-empty* (Python truthiness); a null
price is always discarded, and the filtered record set keeps exactly the
truthy-priced records. -/
theorem price_keep_truthy (p : Option String)
    (prices : List (Option String)) (q : Option String) :
    (price_truthy p = true ↔ ∃ s, p = some s ∧ s ≠ "") ∧
    price_truthy none = false ∧
    (q ∈ prices.filter price_truthy ↔
      q ∈ prices ∧ price_truthy q = true) := by
  refine ⟨?_, rfl, List.mem_filter⟩
  cases p with
  | none => simp [price_truthy]
  | some s =>
    simp only [price_truthy, decide_eq_true_eq, Option.some.injEq]
    constructor
    · intro h
      exact ⟨s, rfl, h⟩
    · rintro ⟨u, heq, hu⟩
      subst heq
      exact hu

/-- C8 counterexample: an exception raised inside the `try` block before
the cleanup statement (here: during the polling loop) reaches the outer
`except Exception` handler, which returns an empty frame without
deleting the progress file — an early-return error path that skips the
cleanup. -/
theorem cleanup_skipped_on_poll_exception :
    run_scraper_subprocess
        { launch_ok := true, poll_ok := false, returncode := 0,
          output_decodable := true } =
      ⟨false, RunOutput.emptyFrame⟩ := by
  decide

/-- C8 amended: on every path on which no exception is raised before the
cleanup statement — normal completion, nonzero child exit status, and
undecodable child output alike — the progress file is deleted before the
orchestrator returns; only the outer exception handler (reached when the
launch or the polling loop itself raises) returns without the cleanup. -/
theorem cleanup_on_completion_paths (s : OrchestratorScenario)
    (h1 : s.launch_ok = true) (h2 : s.poll_ok = true) :
    (run_scraper_subprocess s).progress_file_deleted = true := by
  obtain ⟨l, pl, rc, dec⟩ := s
  simp only at h1 h2
  subst h1
  subst h2
  by_cases hrc : rc ≠ 0
  · simp [run_scraper_subprocess, hrc]
  · by_cases hdec : dec = false
    · simp [run_scraper_subprocess, hrc, hdec]
    · simp [run_scraper_subprocess, hrc, hdec]

/-- Witness for C8's amended claim: nonzero exit status with launch and
polling succeeding. -/
theorem cleanup_on_completion_paths_witness :
    (run_scraper_subprocess
        { launch_ok := true, poll_ok := true, returncode := 1,
          output_decodable := true }).progress_file_deleted = true :=
  cleanup_on_completion_paths
    { launch_ok := true, poll_ok := true, returncode := 1,
      output_decodable := true } rfl rfl

lemma heap_get_set_ne (a : Heap) (i r : ℕ) (f : Frame) (hne : r ≠ i) :
    heap_get (heap_set a i f) r = heap_get a r := by
  unfold heap_get heap_set
  induction a generalizing i r with
  | nil => simp
  | cons x xs ih =>
    cases i with
    | zero =>
      cases r with
      | zero => exact absurd rfl hne
      | succ k => simp
    | succ j =>
      cases r with
      | zero => simp
      | succ k => simpa using ih j k (by omega)

lemma heap_get_append_lt (h : Heap) (x : Frame) (r : ℕ)
    (hr : r < h.length) :
    heap_get (h ++ [x]) r = heap_get h r := by
  unfold heap_get
  induction h generalizing r with
  | nil => simp at hr
  | cons y ys ih =>
    cases r with
    | zero => rfl
    | succ k => simpa using ih k (by simpa using hr)

lemma foldl_set_copy_only (body : List (Frame → Frame)) (rcopy r : ℕ)
    (hne : r ≠ rcopy) :
    ∀ acc : Heap,
      heap_get
        (body.foldl
          (fun a op => heap_set a rcopy (op (heap_get a rcopy))) acc) r =
        heap_get acc r := by
  induction body with
  | nil => intro acc; rfl
  | cons op rest ih =>
    intro acc
    rw [List.foldl_cons, ih]
    exact heap_get_set_ne acc rcopy r _ hne

lemma run_stage_preserves_input (body : List (Frame → Frame)) (h : Heap)
    (r : ℕ) (hr : r < h.length) :
    heap_get ((run_stage body h r).1) r = heap_get h r ∧
    (run_stage body h r).2 = h.length := by
  unfold run_stage
  refine ⟨?_, rfl⟩
  rw [foldl_set_copy_only body h.length r (by omega)]
  exact heap_get_append_lt h _ r hr

/-- C9: no pipeline stage mutates the frame it receives: for every heap
and every valid input reference, `preprocess_car_data`,
`predict_prices` (for any model) and `add_price_diff_features` each
return a fresh reference distinct from the input, and the frame at the
input reference is unchanged after the call. -/
theorem stages_do_not_mutate_input (h : Heap) (r : ℕ)
    (model : CarRow → ℚ) (has_std_col : Bool) (hr : r < h.length) :
    heap_get ((preprocess_car_data_st h r).1) r = heap_get h r ∧
    (preprocess_car_data_st h r).2 ≠ r ∧
    heap_get ((predict_prices_st model h r).1) r = heap_get h r ∧
    (predict_prices_st model h r).2 ≠ r ∧
    heap_get ((add_price_diff_features_st has_std_col h r).1) r =
      heap_get h r ∧
    (add_price_diff_features_st has_std_col h r).2 ≠ r := by
  have h1 := run_stage_preserves_input
    [dedup_by_listing_id, drop_price_outliers_by_title] h r hr
  have h2 := run_stage_preserves_input
    [fun fr =>
      fr.map (fun row => { row with predicted_price := model row })] h r hr
  have h3 := run_stage_preserves_input
    [fun fr => add_price_diff_features has_std_col fr] h r hr
  refine ⟨h1.1, ?_, h2.1, ?_, h3.1, ?_⟩
  · rw [show (preprocess_car_data_st h r).2 = h.length from h1.2]
    omega
  · rw [show (predict_prices_st model h r).2 = h.length from h2.2]
    omega
  · rw [show (add_price_diff_features_st has_std_col h r).2 = h.length
      from h3.2]
    omega

/-- Witness for C9: a one-frame heap holding a single row. -/
theorem stages_do_not_mutate_input_witness :
    heap_get
        ((preprocess_car_data_st
          [[{ listing_id := "w", price := 50000,
              avg_price_by_title := 100000, std_error_pct := 10,
              predicted_price := 0, price_diff_pct := none,
              price_diff_vs_error := none }]] 0).1) 0 =
      heap_get
        [[{ listing_id := "w", price := 50000,
            avg_price_by_title := 100000, std_error_pct := 10,
            predicted_price := 0, price_diff_pct := none,
            price_diff_vs_error := none }]] 0 ∧
    (preprocess_car_data_st
        [[{ listing_id := "w", price := 50000,
            avg_price_by_title := 100000, std_error_pct := 10,
            predicted_price := 0, price_diff_pct := none,
            price_diff_vs_error := none }]] 0).2 ≠ 0 := by
  have h := stages_do_not_mutate_input
    [[{ listing_id := "w", price := 50000,
        avg_price_by_title := 100000, std_error_pct := 10,
        predicted_price := 0, price_diff_pct := none,
        price_diff_vs_error := none }]] 0 (fun _ => 0) true
    (by decide)
  exact ⟨h.1, h.2.1⟩

end VFM
